import Mathlib

set_option autoImplicit false
set_option maxRecDepth 100000

/-!
Verification development for the research-agent account-plan pipeline.

The Python sources `generator.py`, `memory.py` and `utils.py` are shallowly
embedded below.  JSON values are modelled by the inductive type `Json`
(numbers split into exact integers and float literals, which is the fragment
the pipeline manipulates); Python dicts are insertion-ordered association
lists with the upsert behaviour of CPython dicts (`dictSet` replaces the
value of an existing key in place and appends a fresh key at the end).
Python exceptions are modelled with `Except Unit`; functions that can only
signal failure through `None` return `Option`.
-/

/-- JSON values as produced by `json.loads`.  Integer numbers are kept
exactly; non-integer numeric literals (fraction or exponent present, or the
constants NaN / Infinity that the Python parser accepts) are kept as their
source literal in the `flt` constructor. -/
inductive Json where
  | null
  | bool (b : Bool)
  | num (n : Int)
  | flt (lit : String)
  | str (s : String)
  | arr (elems : List Json)
  | obj (entries : List (String × Json))

/-- Lookup in an insertion-ordered dict: value of the first (hence unique)
entry with the given key, like Python `d.get(k)`. -/
def dictGet {α : Type} : List (String × α) → String → Option α
  | [], _ => none
  | (k, v) :: rest, key => if k = key then some v else dictGet rest key

/-- CPython dict assignment `d[k] = v`: an existing key keeps its position
and gets the new value; a fresh key is appended at the end. -/
def dictSet {α : Type} : List (String × α) → String → α → List (String × α)
  | [], key, v => [(key, v)]
  | (k, w) :: rest, key, v =>
      if k = key then (k, v) :: rest else (k, w) :: dictSet rest key v

/-- Python membership test `k in d` for a dict. -/
def dictHasKey {α : Type} (d : List (String × α)) (key : String) : Bool :=
  (dictGet d key).isSome

/-- Whitespace recognised by Python `str.strip()` and by the `\s` class of
the `re` module on ASCII text: space, tab, newline, carriage return,
vertical tab, form feed. -/
def isPyWs (c : Char) : Bool :=
  c = ' ' || c = '\t' || c = '\n' || c = '\r' || c = '\x0b' || c = '\x0c'

/-- Python `str.strip()` on the ASCII fragment: drop leading and trailing
whitespace characters. -/
def pyStrip (s : String) : String :=
  String.mk (((s.data.dropWhile isPyWs).reverse.dropWhile isPyWs).reverse)

/-- Boolean prefix test on character lists. -/
def isPrefixL : List Char → List Char → Bool
  | [], _ => true
  | _ :: _, [] => false
  | a :: as, b :: bs => a = b && isPrefixL as bs

/-- Substring occurrence test on character lists (Python `needle in haystack`
for strings; the empty needle occurs everywhere). -/
def containsL (needle : List Char) : List Char → Bool
  | [] => isPrefixL needle []
  | c :: cs => isPrefixL needle (c :: cs) || containsL needle cs

/-- Python substring containment `needle in haystack`. -/
def strContains (needle haystack : String) : Bool :=
  containsL needle.data haystack.data

/-- Python truthiness `bool(x)` of a JSON value: empty containers, empty
strings, zero numbers, `False` and `None` are falsy. -/
def pyTruthy : Json → Bool
  | .null => false
  | .bool b => b
  | .num n => n ≠ 0
  | .flt lit =>
      let mant := lit.data.takeWhile (fun c => c ≠ 'e' && c ≠ 'E')
      !(mant.any Char.isDigit && mant.all (fun c => !c.isDigit || c = '0'))
  | .str s => !s.isEmpty
  | .arr xs => !xs.isEmpty
  | .obj es => !es.isEmpty

/-- Python membership `k in x` where `k` is a string and `x` an arbitrary
value: key lookup for dicts, element equality for lists, substring test for
strings; on numbers, booleans and `None` the operator raises `TypeError`,
modelled by `Except.error`. -/
def pyIn (k : String) : Json → Except Unit Bool
  | .obj entries => .ok (dictHasKey entries k)
  | .arr xs => .ok (xs.any (fun j => match j with | .str s => s = k | _ => false))
  | .str s => .ok (strContains k s)
  | _ => .error ()

/-! ## A model of Python `json.loads`

Recursive-descent parser over the character list, mirroring the grammar the
CPython `json` decoder accepts in its default (strict) configuration:
objects, arrays, strings with the standard escapes, integers, non-integer
numbers (kept as literals), `true` / `false` / `null`, and the extended
constants `NaN`, `Infinity`, `-Infinity`.  After the top-level value only
whitespace may remain.  Recursion is bounded by a fuel argument that is
strictly larger than the number of characters a chain of recursive entries
can consume, so well-fuelled calls never exhaust it. -/

/-- Whitespace skipped between JSON tokens (the decoder's `_w` class). -/
def isJsonWs (c : Char) : Bool :=
  c = ' ' || c = '\t' || c = '\n' || c = '\r'

/-- Drop leading JSON whitespace. -/
def skipWs : List Char → List Char
  | [] => []
  | c :: cs => if isJsonWs c then skipWs cs else c :: cs

/-- Value of one hexadecimal digit, by code-point ranges (0-9, a-f, A-F). -/
def hexVal (c : Char) : Option Nat :=
  let n := c.toNat
  if 48 ≤ n ∧ n ≤ 57 then some (n - 48)
  else if 97 ≤ n ∧ n ≤ 102 then some (n - 87)
  else if 65 ≤ n ∧ n ≤ 70 then some (n - 55)
  else none

/-- Body of a JSON string, the opening quote already consumed.  Returns the
decoded characters and the remaining input.  Unescaped control characters
and unknown escapes are rejected, as in strict mode. -/
def parseStringChars : Nat → List Char → Option (List Char × List Char)
  | 0, _ => none
  | _ + 1, [] => none
  | fuel + 1, c :: cs =>
    if c = '\x22' then some ([], cs)
    else if c = '\x5c' then
      match cs with
      | [] => none
      | e :: cs1 =>
        let decoded : Option (Char × List Char) :=
          if e = '\x22' then some ('\x22', cs1)
          else if e = '\x5c' then some ('\x5c', cs1)
          else if e = '/' then some ('/', cs1)
          else if e = 'b' then some ('\x08', cs1)
          else if e = 'f' then some ('\x0c', cs1)
          else if e = 'n' then some ('\n', cs1)
          else if e = 'r' then some ('\r', cs1)
          else if e = 't' then some ('\t', cs1)
          else if e = 'u' then
            match cs1 with
            | h1 :: h2 :: h3 :: h4 :: cs2 =>
              match hexVal h1, hexVal h2, hexVal h3, hexVal h4 with
              | some a, some b, some c2, some d =>
                  some (Char.ofNat (((a * 16 + b) * 16 + c2) * 16 + d), cs2)
              | _, _, _, _ => none
            | _ => none
          else none
        match decoded with
        | some (ch, rest) =>
          match parseStringChars fuel rest with
          | some (out, rem) => some (ch :: out, rem)
          | none => none
        | none => none
    else if c.toNat < 32 then none
    else
      match parseStringChars fuel cs with
      | some (out, rem) => some (c :: out, rem)
      | none => none

/-- Numeric value of a list of decimal digits. -/
def digitsToNat (ds : List Char) : Nat :=
  ds.foldl (fun n c => 10 * n + (c.toNat - 48)) 0

/-- A JSON number starting at the head of the input, following the decoder's
regular expression `-?(0|[1-9][0-9]*)(\.[0-9]+)?([eE][-+]?[0-9]+)?` with its
longest-match behaviour (an unmatchable fraction or exponent suffix is left
unconsumed).  A plain integer becomes `Json.num`; a number with a fraction
or exponent keeps its literal in `Json.flt`. -/
def parseNumber (cs : List Char) : Option (Json × List Char) :=
  let (sign, cs1) := match cs with
    | '-' :: t => (['-'], t)
    | _ => (([] : List Char), cs)
  match cs1 with
  | [] => none
  | c :: _ =>
    if !c.isDigit then none
    else
      let (ip, r1) :=
        if c = '0' then ([c], cs1.tail)
        else (cs1.takeWhile Char.isDigit, cs1.dropWhile Char.isDigit)
      let (fp, r2) :=
        match r1 with
        | '.' :: t =>
          let ds := t.takeWhile Char.isDigit
          if ds.isEmpty then (([] : List Char), r1)
          else ('.' :: ds, t.dropWhile Char.isDigit)
        | _ => (([] : List Char), r1)
      let (ep, r3) :=
        match r2 with
        | e :: t =>
          if e = 'e' || e = 'E' then
            let (es, t1) := match t with
              | '+' :: t2 => (['+'], t2)
              | '-' :: t2 => (['-'], t2)
              | _ => (([] : List Char), t)
            let ds := t1.takeWhile Char.isDigit
            if ds.isEmpty then (([] : List Char), r2)
            else (e :: (es ++ ds), t1.dropWhile Char.isDigit)
          else (([] : List Char), r2)
        | _ => (([] : List Char), r2)
      if fp.isEmpty && ep.isEmpty then
        let v : Int := Int.ofNat (digitsToNat ip)
        some (.num (if sign.isEmpty then v else -v), r3)
      else
        some (.flt (String.mk (sign ++ ip ++ fp ++ ep)), r3)

mutual

/-- One JSON value starting at the head of the input (leading whitespace
already skipped), returning the value and the unconsumed rest. -/
def parseValue : Nat → List Char → Option (Json × List Char)
  | 0, _ => none
  | _ + 1, [] => none
  | fuel + 1, c :: rest =>
    if c = '\x7b' then
      let cs1 := skipWs rest
      match cs1 with
      | '\x7d' :: r => some (.obj [], r)
      | _ => parseMembers fuel [] cs1
    else if c = '[' then
      let cs1 := skipWs rest
      match cs1 with
      | ']' :: r => some (.arr [], r)
      | _ => parseElems fuel [] cs1
    else if c = '\x22' then
      match parseStringChars (rest.length + 1) rest with
      | some (out, rem) => some (.str (String.mk out), rem)
      | none => none
    else if c = 't' then
      if isPrefixL ['r', 'u', 'e'] rest then some (.bool true, rest.drop 3) else none
    else if c = 'f' then
      if isPrefixL ['a', 'l', 's', 'e'] rest then some (.bool false, rest.drop 4) else none
    else if c = 'n' then
      if isPrefixL ['u', 'l', 'l'] rest then some (.null, rest.drop 3) else none
    else if c = 'N' then
      if isPrefixL ['a', 'N'] rest then some (.flt "NaN", rest.drop 2) else none
    else if c = 'I' then
      if isPrefixL ['n', 'f', 'i', 'n', 'i', 't', 'y'] rest
      then some (.flt "Infinity", rest.drop 7) else none
    else if c = '-' && isPrefixL ['I', 'n', 'f', 'i', 'n', 'i', 't', 'y'] rest then
      some (.flt "-Infinity", rest.drop 8)
    else parseNumber (c :: rest)

/-- Members of a JSON object after `{` (input positioned at a key's opening
quote, whitespace skipped).  Duplicate keys follow CPython dict assignment:
first position, last value. -/
def parseMembers : Nat → List (String × Json) → List Char → Option (Json × List Char)
  | 0, _, _ => none
  | fuel + 1, acc, cs =>
    match cs with
    | '\x22' :: cs1 =>
      match parseStringChars (cs1.length + 1) cs1 with
      | some (kcs, cs2) =>
        match skipWs cs2 with
        | ':' :: cs4 =>
          match parseValue fuel (skipWs cs4) with
          | some (v, cs5) =>
            let acc1 := dictSet acc (String.mk kcs) v
            match skipWs cs5 with
            | ',' :: cs7 => parseMembers fuel acc1 (skipWs cs7)
            | '\x7d' :: cs7 => some (.obj acc1, cs7)
            | _ => none
          | none => none
        | _ => none
      | none => none
    | _ => none

/-- Elements of a JSON array after `[` (input positioned at a value,
whitespace skipped). -/
def parseElems : Nat → List Json → List Char → Option (Json × List Char)
  | 0, _, _ => none
  | fuel + 1, acc, cs =>
    match parseValue fuel cs with
    | some (v, cs1) =>
      match skipWs cs1 with
      | ',' :: cs2 => parseElems fuel (acc ++ [v]) (skipWs cs2)
      | ']' :: cs2 => some (.arr (acc ++ [v]), cs2)
      | _ => none
    | none => none

end

/-- Python `json.loads`: skip leading whitespace, parse one value, allow
only trailing whitespace.  `none` models a raised `JSONDecodeError`. -/
def json_loads (s : String) : Option Json :=
  match parseValue (s.length + 2) (skipWs s.data) with
  | some (v, rest) => if (skipWs rest).isEmpty then some v else none
  | none => none

/-! ## generator.py -/

/-- One left-to-right pass of `re.sub(r'```json\s*|\s*```', '', text)`:
at each position the engine first tries the literal ```` ```json ```` plus
any following whitespace, then a whitespace run followed by ```` ``` ````;
a match is deleted and scanning resumes after it, otherwise one character
is kept and scanning moves on. -/
def stripFencesAux : Nat → List Char → List Char
  | 0, cs => cs
  | fuel + 1, cs =>
    match cs with
    | [] => []
    | c :: rest =>
      if isPrefixL ['\x60', '\x60', '\x60', 'j', 's', 'o', 'n'] cs then
        stripFencesAux fuel ((cs.drop 7).dropWhile isPyWs)
      else
        let r := cs.dropWhile isPyWs
        if isPrefixL ['\x60', '\x60', '\x60'] r then
          stripFencesAux fuel (r.drop 3)
        else c :: stripFencesAux fuel rest

/-- The markdown code-fence removal performed by `_parse_json_response`. -/
def strip_code_fences (text : String) : String :=
  String.mk (stripFencesAux text.data.length text.data)

/-- Index of the first occurrence of a character (Python `str.find`,
`none` for -1). -/
def findIdx (c : Char) : List Char → Option Nat
  | [] => none
  | x :: xs => if x = c then some 0 else (findIdx c xs).map (· + 1)

/-- Index of the last occurrence of a character (Python `str.rfind`,
`none` for -1). -/
def rfindIdx (c : Char) : List Char → Option Nat
  | [] => none
  | x :: xs =>
    match rfindIdx c xs with
    | some i => some (i + 1)
    | none => if x = c then some 0 else none

/-- The brace-scan fallback of `_parse_json_response`: parse the substring
from the first `{` to the last `}` of the cleaned text; any failure
(no braces, braces in the wrong order, substring unparsable) yields `none`. -/
def braceScanFallback (cleaned_text : String) : Option Json :=
  let cs := cleaned_text.data
  match findIdx '\x7b' cs with
  | none => none
  | some start =>
    let stop := match rfindIdx '\x7d' cs with
      | some j => j + 1
      | none => 0
    if start < stop then json_loads (String.mk ((cs.drop start).take (stop - start)))
    else none

/-- `ResearchGenerator._parse_json_response` (generator.py): remove markdown
code fences, strip, try a direct `json.loads`; on failure try the substring
between the first `{` and the last `}`; on failure return `None`. -/
def parse_json_response (response_text : String) : Option Json :=
  match json_loads (pyStrip (strip_code_fences response_text)) with
  | some v => some v
  | none => braceScanFallback (pyStrip (strip_code_fences response_text))

/-- The required-section contract of `generate_account_plan`. -/
def required_sections : List String :=
  ["company_overview", "key_stakeholders", "pain_points",
   "value_proposition", "engagement_strategy", "success_metrics",
   "next_steps"]

/-- Python `all(section in plan_data for section in sections)` with
short-circuit evaluation; a `TypeError` raised by a membership test before a
`False` is reached propagates as `Except.error`. -/
def allIn (sections : List String) (plan_data : Json) : Except Unit Bool :=
  match sections with
  | [] => .ok true
  | k :: rest =>
    match pyIn k plan_data with
    | .error e => .error e
    | .ok false => .ok false
    | .ok true => allIn rest plan_data

/-- `ResearchGenerator.generate_account_plan` (generator.py), as a function
of the collaborator's response text: parse it with `_parse_json_response`;
return the parsed value when it is truthy and contains every required
section, `None` otherwise (including when the membership test raises and
the surrounding `except` handler answers `None`). -/
def generate_account_plan (response_text : String) : Option Json :=
  match parse_json_response response_text with
  | none => none
  | some plan_data =>
    if pyTruthy plan_data then
      match allIn required_sections plan_data with
      | .error _ => none
      | .ok true => some plan_data
      | .ok false => none
    else none

/-- The prompt built by `ResearchGenerator.regenerate_section`
(generator.py); the research corpus enters only through its first
1000 characters, `research_data[:1000]`. -/
def regen_prompt (section_name current_content instruction research_data : String) : String :=
  "Update this section of an account plan.\n\nSection Name: " ++ section_name ++
  "\nCurrent Content: " ++ current_content ++
  "\n\nUser's Instruction: " ++ instruction ++
  "\n\nResearch Context: " ++ research_data.take 1000 ++
  "...\n\nProvide ONLY the updated section content, no formatting or explanation."

/-- `ResearchGenerator.regenerate_section` (generator.py).  The collaborator
call `self.model.generate_content(prompt).text` is the function argument
`gen`; an exception it raises (carrying `str(e)`) is the `Except.error`
case.  The whole body sits in a `try`, so the function always returns a
string: either the collaborator's text or the diagnostic message. -/
def regenerate_section (gen : String → Except String String)
    (section_name current_content instruction research_data : String) : String :=
  match gen (regen_prompt section_name current_content instruction research_data) with
  | .ok text => text
  | .error e => "Error regenerating section: " ++ e

/-! ## memory.py — the per-company plan store

The store is one JSON file.  The module initializer writes `{}` when the
file is missing, `_save_db` always writes `json.dumps` of a dict, and
`_load_db` rewrites a corrupt file, so the reachable file states are: a
file whose text strips to the empty string, a non-empty unparsable file,
and a file holding a JSON object; `DbFile` models exactly these, with the
object case carried in parsed form (serialization round-trips it). -/

/-- State of the persisted store file `assets/sample_output.json`. -/
inductive DbFile where
  | empty
  | corrupt
  | stored (db : List (String × Json))

/-- `_load_db` (memory.py): empty text yields the empty dict without
touching the file; unparsable text resets the file to `{}` and yields the
empty dict; a stored object is returned as is.  Result: the dict and the
file state after the call. -/
def load_db : DbFile → List (String × Json) × DbFile
  | .empty => ([], .empty)
  | .corrupt => ([], .stored [])
  | .stored db => (db, .stored db)

/-- `_save_db` (memory.py): overwrite the file with the dict. -/
def save_db (db : List (String × Json)) : DbFile :=
  DbFile.stored db

/-- `save_plan` (memory.py): read the whole store, upsert the company's
entry, write the whole store back. -/
def save_plan (company : String) (plan_text : Json) (f : DbFile) : DbFile :=
  save_db (dictSet (load_db f).1 company plan_text)

/-- `load_plan` (memory.py): read the whole store and look the company up;
the second component is the file state after the call. -/
def load_plan (company : String) (f : DbFile) : Option Json × DbFile :=
  ((dictGet (load_db f).1 company), (load_db f).2)

/-- `list_saved_companies` (memory.py): the keys of the store, in stored
order. -/
def list_saved_companies (f : DbFile) : List String × DbFile :=
  ((load_db f).1.map Prod.fst, (load_db f).2)

/-- `update_plan_section` (memory.py): read the store; a missing or falsy
plan answers `False`; then `section_heading not in plan` answers `False`
when the key is absent (Python `in` semantics, which raises `TypeError` on
a number); when the test succeeds, `plan[section_heading] = new_content`
assigns on a dict but raises `TypeError` on a string or list.  `Except.ok`
carries the returned boolean and the resulting file state. -/
def update_plan_section (company section_heading new_content : String)
    (f : DbFile) : Except Unit (Bool × DbFile) :=
  let db := (load_db f).1
  let f1 := (load_db f).2
  match dictGet db company with
  | none => .ok (false, f1)
  | some plan =>
    if pyTruthy plan then
      match pyIn section_heading plan with
      | .error _ => .error ()
      | .ok false => .ok (false, f1)
      | .ok true =>
        match plan with
        | .obj entries =>
            .ok (true, save_db (dictSet db company
              (.obj (dictSet entries section_heading (.str new_content)))))
        | _ => .error ()
    else .ok (false, f1)

/-- The dict a `DbFile` denotes on the next read. -/
def dbOf (f : DbFile) : List (String × Json) := (load_db f).1

/-! ## utils.py — single-plan persistence and export -/

/-- The legacy-format probe keys of `load_account_plan`. -/
def probe_keys : List String :=
  ["company_overview", "key_stakeholders", "pain_points"]

/-- `load_account_plan` (utils.py), as a function of the JSON value read
from `account_plan.json` (`none` when the file is missing or unreadable):
a truthy value with a `plan` member returns that member; otherwise a dict
containing one of the probe keys is returned whole (legacy format);
everything else returns `None`.  On a truthy non-dict the expression
`"plan" in data` or the subscript `data["plan"]` can raise `TypeError`,
modelled by `Except.error`. -/
def load_account_plan (data : Option Json) : Except Unit (Option Json) :=
  match data with
  | none => .ok none
  | some d =>
    if pyTruthy d then
      match pyIn "plan" d with
      | .error _ => .error ()
      | .ok true =>
        match d with
        | .obj entries => .ok (dictGet entries "plan")
        | _ => .error ()
      | .ok false =>
        match d with
        | .obj entries =>
          if probe_keys.any (fun k => dictHasKey entries k) then .ok (some d)
          else .ok none
        | _ => .ok none
    else .ok none

/-- `save_account_plan` (utils.py): the JSON value written to
`account_plan.json` — `{}` for `None`, otherwise the plan wrapped with
`created_at` (the current time) and `version` metadata. -/
def save_account_plan (plan : Option (List (String × Json))) (now : String) : Json :=
  match plan with
  | none => .obj []
  | some p => .obj [("plan", .obj p), ("created_at", .str now), ("version", .str "1.0")]

/-- `export_plan_to_json` (utils.py).  The serialized dict is built on
`plan.copy()`, so the caller's dict is untouched; with the timestamp flag
the copy additionally receives `exported_at = now`.  The first component is
the caller's dict after the call, the second the dict passed to
`json.dumps` (whose output parses back to exactly that dict). -/
def export_plan_to_json (plan : List (String × String)) (include_timestamp : Bool)
    (now : String) : List (String × String) × List (String × String) :=
  let export_data := plan
  let export_data :=
    if include_timestamp then dictSet export_data "exported_at" now else export_data
  (plan, export_data)

/-- `validate_account_plan` (utils.py): a section is missing when absent or
falsy; the result is the validity flag and the missing sections. -/
def validate_account_plan (plan : List (String × Json)) : Bool × List String :=
  let missing_sections := required_sections.filter
    (fun sec => match dictGet plan sec with
      | none => true
      | some v => !pyTruthy v)
  (missing_sections.length = 0, missing_sections)

/-! ## Dictionary lemmas -/

theorem dictGet_dictSet_self {α : Type} (db : List (String × α)) (k : String) (v : α) :
    dictGet (dictSet db k v) k = some v := by
  induction db with
  | nil => simp [dictSet, dictGet]
  | cons hd tl ih =>
    obtain ⟨k0, v0⟩ := hd
    by_cases h : k0 = k
    · simp [dictSet, dictGet, h]
    · simp [dictSet, dictGet, h, ih]

theorem dictGet_dictSet_ne {α : Type} (db : List (String × α)) (k k2 : String) (v : α)
    (h : k2 ≠ k) : dictGet (dictSet db k v) k2 = dictGet db k2 := by
  have hne : ¬k = k2 := fun hh => h hh.symm
  induction db with
  | nil => simp [dictSet, dictGet, hne]
  | cons hd tl ih =>
    obtain ⟨k0, v0⟩ := hd
    by_cases h0 : k0 = k
    · subst h0
      simp [dictSet, dictGet, hne]
    · by_cases h2 : k0 = k2
      · simp [dictSet, dictGet, h0, h2, h]
      · simp [dictSet, dictGet, h0, h2, ih]

theorem dictHasKey_iff_mem {α : Type} (db : List (String × α)) (k : String) :
    dictHasKey db k = true ↔ k ∈ db.map Prod.fst := by
  induction db with
  | nil => simp [dictHasKey, dictGet]
  | cons hd tl ih =>
    obtain ⟨k0, v0⟩ := hd
    by_cases h : k0 = k
    · simp [dictHasKey, dictGet, h]
    · simp only [dictHasKey, dictGet, if_neg h, List.map_cons, List.mem_cons]
      rw [dictHasKey] at ih
      rw [ih]
      constructor
      · exact fun hm => Or.inr hm
      · rintro (hm | hm)
        · exact absurd hm.symm h
        · exact hm

theorem keys_dictSet {α : Type} (db : List (String × α)) (k : String) (v : α) :
    (dictSet db k v).map Prod.fst =
      if k ∈ db.map Prod.fst then db.map Prod.fst else db.map Prod.fst ++ [k] := by
  induction db with
  | nil => simp [dictSet]
  | cons hd tl ih =>
    obtain ⟨k0, v0⟩ := hd
    by_cases h : k0 = k
    · simp [dictSet, h]
    · simp only [dictSet, if_neg h, List.map_cons, List.mem_cons]
      rw [ih]
      have hne : ¬k = k0 := fun hh => h hh.symm
      by_cases hm : k ∈ tl.map Prod.fst
      · simp [hm, hne]
      · simp [hm, hne]

theorem dictSet_append_of_absent {α : Type} (db : List (String × α)) (k : String) (v : α)
    (h : dictGet db k = none) : dictSet db k v = db ++ [(k, v)] := by
  induction db with
  | nil => simp [dictSet]
  | cons hd tl ih =>
    obtain ⟨k0, v0⟩ := hd
    by_cases h0 : k0 = k
    · rw [dictGet, if_pos h0] at h
      cases h
    · rw [dictGet, if_neg h0] at h
      simp [dictSet, h0, ih h]

theorem dictGet_some_nonempty {α : Type} (db : List (String × α)) (k : String) (v : α)
    (h : dictGet db k = some v) : db ≠ [] := by
  cases db with
  | nil => rw [dictGet] at h; cases h
  | cons hd tl => exact fun hh => List.noConfusion hh

/-- `all(section in plan_data for ...)` over a dict never raises and is the
conjunction of the key-membership tests. -/
theorem allIn_obj (ks : List String) (entries : List (String × Json)) :
    allIn ks (Json.obj entries) = .ok (ks.all (fun k => dictHasKey entries k)) := by
  induction ks with
  | nil => simp [allIn]
  | cons k rest ih =>
    rw [allIn, List.all_cons]
    cases h : dictHasKey entries k with
    | false => simp [pyIn, h]
    | true => simp [pyIn, h, ih]

/-! ## Claim theorems -/

/-- C2: JSON-mode extraction implements the three-tier fallback for every
input: after stripping any markdown code fence and trimming, a successful
direct parse is returned; otherwise the substring from the first `{` to the
last `}` is parsed; otherwise the null sentinel is returned, never an
exception.  On the two concrete inputs of the claim — a fenced JSON object
with real newlines, and prose-wrapped JSON — the result is the object
mapping "a" to 1. -/
theorem C2_parse_json_response_three_tier :
    (∀ s v, json_loads (pyStrip (strip_code_fences s)) = some v →
        parse_json_response s = some v) ∧
    (∀ s, json_loads (pyStrip (strip_code_fences s)) = none →
        parse_json_response s = braceScanFallback (pyStrip (strip_code_fences s))) ∧
    (∀ s, json_loads (pyStrip (strip_code_fences s)) = none →
        braceScanFallback (pyStrip (strip_code_fences s)) = none →
        parse_json_response s = none) ∧
    parse_json_response "```json\n\x7b\"a\":1\x7d\n```" = some (Json.obj [("a", Json.num 1)]) ∧
    parse_json_response "Sure! \x7b\"a\":1\x7d Hope that helps." =
      some (Json.obj [("a", Json.num 1)]) := by
  refine ⟨?_, ?_, ?_, ?_, ?_⟩
  · intro s v h
    unfold parse_json_response
    rw [h]
  · intro s h
    unfold parse_json_response
    rw [h]
  · intro s h h2
    unfold parse_json_response
    rw [h, h2]
  · rfl
  · rfl

/-- C2 witness: the first tier at the concrete input `"1"` (the cleaned
text parses directly) and the third tier at `"hello"` (no parse, no
braces). -/
theorem C2_parse_json_response_three_tier_witness :
    parse_json_response "1" = some (Json.num 1) ∧ parse_json_response "hello" = none :=
  ⟨C2_parse_json_response_three_tier.1 "1" (Json.num 1) rfl,
   (C2_parse_json_response_three_tier.2.2.1 "hello" rfl rfl)⟩

/-- C1: the Plan Generation Stage fails closed — when no JSON object can be
extracted from the collaborator response, and when the extracted object
lacks at least one required section key, `generate_account_plan` returns
`None`, never a partial plan. -/
theorem C1_generate_account_plan_fails_closed :
    (∀ s, parse_json_response s = none → generate_account_plan s = none) ∧
    (∀ s entries k, parse_json_response s = some (Json.obj entries) →
        k ∈ required_sections → dictGet entries k = none →
        generate_account_plan s = none) := by
  constructor
  · intro s h
    unfold generate_account_plan
    rw [h]
  · intro s entries k hp hk hmiss
    have hall : (required_sections.all fun k2 => dictHasKey entries k2) = false := by
      rw [List.all_eq_false]
      exact ⟨k, hk, by simp [dictHasKey, hmiss]⟩
    simp only [generate_account_plan, hp, allIn_obj, hall]
    cases pyTruthy (Json.obj entries) <;> simp

/-- C1 witness: a response with no JSON at all, and a response whose JSON
object lacks `company_overview`. -/
theorem C1_generate_account_plan_fails_closed_witness :
    generate_account_plan "hello" = none ∧ generate_account_plan "\x7b\"a\":1\x7d" = none :=
  ⟨C1_generate_account_plan_fails_closed.1 "hello" rfl,
   C1_generate_account_plan_fails_closed.2 "\x7b\"a\":1\x7d" [("a", Json.num 1)]
     "company_overview" rfl (by decide) rfl⟩

/-- A collaborator response carrying all seven required keys, each with an
empty string value. -/
def empty_sections_response : String :=
  "\x7b\"company_overview\":\"\",\"key_stakeholders\":\"\",\"pain_points\":\"\",\"value_proposition\":\"\",\"engagement_strategy\":\"\",\"success_metrics\":\"\",\"next_steps\":\"\"\x7d"

/-- The parsed entries of `empty_sections_response`. -/
def empty_sections_entries : List (String × Json) :=
  [("company_overview", Json.str ""), ("key_stakeholders", Json.str ""),
   ("pain_points", Json.str ""), ("value_proposition", Json.str ""),
   ("engagement_strategy", Json.str ""), ("success_metrics", Json.str ""),
   ("next_steps", Json.str "")]

/-- C3 counterexample: `generate_account_plan` only checks key presence, so
a response whose seven required keys all carry the empty string is returned
as a non-null plan whose `company_overview` value is empty (and falsy) —
refuting the claim that every returned plan has non-empty string values. -/
theorem C3_counterexample_empty_values_accepted :
    generate_account_plan empty_sections_response = some (Json.obj empty_sections_entries) ∧
    dictGet empty_sections_entries "company_overview" = some (Json.str "") ∧
    pyTruthy (Json.str "") = false :=
  ⟨rfl, rfl, rfl⟩

/-- C3 amended: every non-null plan that `generate_account_plan` returns as
a JSON object has each of the seven required section keys present; the
values are not constrained (they may be empty or non-string). -/
theorem C3_amended_returned_plan_has_required_keys (s : String)
    (entries : List (String × Json))
    (h : generate_account_plan s = some (Json.obj entries)) :
    ∀ k ∈ required_sections, dictHasKey entries k = true := by
  intro k hk
  unfold generate_account_plan at h
  cases hp : parse_json_response s with
  | none => rw [hp] at h; simp at h
  | some pd =>
    rw [hp] at h
    cases ht : pyTruthy pd with
    | false => simp [ht] at h
    | true =>
      cases ha : allIn required_sections pd with
      | error e => simp [ht, ha] at h
      | ok b =>
        cases b with
        | false => simp [ht, ha] at h
        | true =>
          simp [ht, ha] at h
          subst h
          rw [allIn_obj] at ha
          simp only [Except.ok.injEq] at ha
          exact List.all_eq_true.mp ha k hk

/-- A collaborator response carrying all seven required keys with non-empty
values. -/
def full_sections_response : String :=
  "\x7b\"company_overview\":\"a\",\"key_stakeholders\":\"b\",\"pain_points\":\"c\",\"value_proposition\":\"d\",\"engagement_strategy\":\"e\",\"success_metrics\":\"f\",\"next_steps\":\"g\"\x7d"

/-- The parsed entries of `full_sections_response`. -/
def full_sections_entries : List (String × Json) :=
  [("company_overview", Json.str "a"), ("key_stakeholders", Json.str "b"),
   ("pain_points", Json.str "c"), ("value_proposition", Json.str "d"),
   ("engagement_strategy", Json.str "e"), ("success_metrics", Json.str "f"),
   ("next_steps", Json.str "g")]

/-- C3 witness: the amended key-presence theorem applied to a concrete
returned plan. -/
theorem C3_amended_returned_plan_has_required_keys_witness :
    dictHasKey full_sections_entries "next_steps" = true :=
  C3_amended_returned_plan_has_required_keys full_sections_response
    full_sections_entries rfl "next_steps" (by decide)

/-- C4 amended: on every stored collection, `update_plan_section` returns
false and leaves the store unchanged when the company is unknown or the
section key is not a top-level key of the stored value, and it never
creates a new section; when the stored value is a dict with the key
present, it replaces the value, re-persists the whole plan, returns true,
and a subsequent load reflects the new content.  For a metadata-wrapped
value the section keys sit one level down, so only the wrapper keys are
top-level: a section key of the nested plan is reported absent and the
update is refused (see the counterexample). -/
theorem C4_update_section_top_level_only :
    (∀ (db : List (String × Json)) (c k v : String), dictGet db c = none →
        update_plan_section c k v (DbFile.stored db) = .ok (false, DbFile.stored db)) ∧
    (∀ (db : List (String × Json)) (c k v : String) (entries : List (String × Json)),
        dictGet db c = some (Json.obj entries) → dictGet entries k = none →
        update_plan_section c k v (DbFile.stored db) = .ok (false, DbFile.stored db)) ∧
    (∀ (db : List (String × Json)) (c k v : String) (entries : List (String × Json))
        (w : Json), dictGet db c = some (Json.obj entries) → dictGet entries k = some w →
        update_plan_section c k v (DbFile.stored db) =
          .ok (true, DbFile.stored (dictSet db c (Json.obj (dictSet entries k (Json.str v))))) ∧
        (load_plan c (DbFile.stored (dictSet db c
            (Json.obj (dictSet entries k (Json.str v)))))).1
          = some (Json.obj (dictSet entries k (Json.str v))) ∧
        dictGet (dictSet entries k (Json.str v)) k = some (Json.str v)) := by
  refine ⟨?_, ?_, ?_⟩
  · intro db c k v h
    simp [update_plan_section, load_db, h]
  · intro db c k v entries h hmiss
    cases entries with
    | nil => simp [update_plan_section, load_db, h, pyTruthy]
    | cons e tl =>
      simp [update_plan_section, load_db, h, pyTruthy, pyIn, dictHasKey, hmiss]
  · intro db c k v entries w h hfound
    have hne : entries ≠ [] := dictGet_some_nonempty entries k w hfound
    refine ⟨?_, ?_, ?_⟩
    · cases entries with
      | nil => exact absurd rfl hne
      | cons e tl =>
        simp [update_plan_section, load_db, h, pyTruthy, pyIn, dictHasKey, hfound, save_db]
    · simp [load_plan, load_db, dictGet_dictSet_self]
    · exact dictGet_dictSet_self entries k (Json.str v)

/-- C4 witness: the three amended cases at concrete stores. -/
theorem C4_update_section_top_level_only_witness :
    update_plan_section "Acme" "pain_points" "x" (DbFile.stored []) =
      .ok (false, DbFile.stored []) ∧
    update_plan_section "Acme" "pain_points" "x"
        (DbFile.stored [("Acme", Json.obj [("company_overview", Json.str "o")])]) =
      .ok (false, DbFile.stored [("Acme", Json.obj [("company_overview", Json.str "o")])]) ∧
    update_plan_section "Acme" "company_overview" "new"
        (DbFile.stored [("Acme", Json.obj [("company_overview", Json.str "o")])]) =
      .ok (true, DbFile.stored [("Acme", Json.obj [("company_overview", Json.str "new")])]) :=
  ⟨C4_update_section_top_level_only.1 [] "Acme" "pain_points" "x" rfl,
   C4_update_section_top_level_only.2.1 [("Acme", Json.obj [("company_overview", Json.str "o")])]
     "Acme" "pain_points" "x" [("company_overview", Json.str "o")] rfl rfl,
   (C4_update_section_top_level_only.2.2 [("Acme", Json.obj [("company_overview", Json.str "o")])]
     "Acme" "company_overview" "new" [("company_overview", Json.str "o")] (Json.str "o")
     rfl rfl).1⟩

/-- The metadata-wrapped stored value of the C4 counterexample. -/
def wrapped_plan_entries : List (String × Json) :=
  [("company_overview", Json.str "old")]

/-- A store whose only entry is wrapped with `created_at` / `version`
metadata. -/
def wrapped_store : List (String × Json) :=
  [("Acme", Json.obj [("plan", Json.obj wrapped_plan_entries),
                      ("created_at", Json.str "2024-01-01T00:00:00"),
                      ("version", Json.str "1.0")])]

/-- C4 counterexample: on a metadata-wrapped stored value the section key
`company_overview` exists in the company's plan (nested under `plan`), yet
`update_plan_section` returns false and leaves the store unchanged, because
it only consults top-level keys — refuting the claim that the
replace-on-existing-key behaviour also holds for the wrapped shape. -/
theorem C4_counterexample_wrapped_shape_not_updatable :
    dictGet wrapped_plan_entries "company_overview" = some (Json.str "old") ∧
    update_plan_section "Acme" "company_overview" "new" (DbFile.stored wrapped_store) =
      .ok (false, DbFile.stored wrapped_store) :=
  ⟨rfl, rfl⟩

/-- C5: Plan Store round-trip — for every prior file state, company name
and plan value, `save_plan` followed by `load_plan` of the same company
returns exactly that plan (the entry under that exact key is overwritten),
and every other company's entry is untouched. -/
theorem C5_save_load_roundtrip :
    (∀ (f : DbFile) (c : String) (P : Json),
        (load_plan c (save_plan c P f)).1 = some P) ∧
    (∀ (f : DbFile) (c : String) (P : Json) (c2 : String), c2 ≠ c →
        (load_plan c2 (save_plan c P f)).1 = dictGet (dbOf f) c2) := by
  constructor
  · intro f c P
    simp [load_plan, save_plan, save_db, load_db, dictGet_dictSet_self]
  · intro f c P c2 hne
    cases f <;>
      simp [load_plan, save_plan, save_db, load_db, dbOf,
        dictGet_dictSet_ne _ c c2 P hne]

/-- C5 witness: the frame part at a concrete store holding another
company. -/
theorem C5_save_load_roundtrip_witness :
    (load_plan "Other" (save_plan "Acme" (Json.str "p")
        (DbFile.stored [("Other", Json.str "q")]))).1 = some (Json.str "q") :=
  C5_save_load_roundtrip.2 (DbFile.stored [("Other", Json.str "q")]) "Acme"
    (Json.str "p") "Other" (by decide)

/-- C6 counterexample: a stored value that is a raw section-map but carries
none of the three legacy probe keys — here a plan whose only section is
`next_steps` — is not returned by `load_account_plan`; the reader answers
`None` instead of the contained section-map, refuting the claim for raw
section-maps in general. -/
theorem C6_counterexample_raw_map_without_probe_keys :
    load_account_plan (some (Json.obj [("next_steps", Json.str "x")])) = .ok none ∧
    (Except.ok none : Except Unit (Option Json)) ≠
      .ok (some (Json.obj [("next_steps", Json.str "x")])) :=
  ⟨rfl, by intro h; injection h with h2; cases h2⟩

/-- C6 amended: the reader accepts both shapes in this form — any stored
dict with a `plan` member returns that member (in particular every
metadata-wrapped value), and a raw section-map without a `plan` member is
returned whole exactly when it carries at least one of the probe keys
`company_overview` / `key_stakeholders` / `pain_points`; a raw map lacking
all three loads as `None`. -/
theorem C6_load_account_plan_dual_shapes :
    (∀ (entries : List (String × Json)) (planVal : Json),
        dictGet entries "plan" = some planVal →
        load_account_plan (some (Json.obj entries)) = .ok (some planVal)) ∧
    (∀ entries : List (String × Json),
        dictGet entries "plan" = none →
        probe_keys.any (fun k => dictHasKey entries k) = true →
        load_account_plan (some (Json.obj entries)) = .ok (some (Json.obj entries))) ∧
    (∀ entries : List (String × Json),
        dictGet entries "plan" = none →
        probe_keys.any (fun k => dictHasKey entries k) = false →
        load_account_plan (some (Json.obj entries)) = .ok none) := by
  refine ⟨?_, ?_, ?_⟩
  · intro entries planVal h
    have hne : entries ≠ [] := dictGet_some_nonempty entries "plan" planVal h
    cases entries with
    | nil => exact absurd rfl hne
    | cons e tl =>
      simp [load_account_plan, pyTruthy, pyIn, dictHasKey, h]
  · intro entries hplan hprobe
    have hprobe2 : ∃ x ∈ probe_keys, ¬dictGet entries x = none := by
      simpa [dictHasKey, List.any_eq_true, Option.isSome_iff_ne_none] using hprobe
    cases entries with
    | nil =>
      obtain ⟨x, _, hx⟩ := hprobe2
      simp [dictGet] at hx
    | cons e tl =>
      simp [load_account_plan, pyTruthy, pyIn, dictHasKey, hplan, hprobe2]
  · intro entries hplan hprobe
    have hprobe2 : ∀ x ∈ probe_keys, dictGet entries x = none := by
      intro x hx
      have := List.any_eq_false.mp hprobe x hx
      simpa [dictHasKey, Option.isSome_iff_ne_none] using this
    cases entries with
    | nil => simp [load_account_plan, pyTruthy]
    | cons e tl =>
      simp [load_account_plan, pyTruthy, pyIn, dictHasKey, hplan]
      intro x hx
      exact hprobe2 x hx

/-- C6 witness: the amended cases at concrete stored values — a wrapped
value, a legacy raw map with a probe key, and a raw map without one. -/
theorem C6_load_account_plan_dual_shapes_witness :
    load_account_plan (some (Json.obj [("plan", Json.obj [("a", Json.str "b")]),
        ("created_at", Json.str "t"), ("version", Json.str "1.0")]))
      = .ok (some (Json.obj [("a", Json.str "b")])) ∧
    load_account_plan (some (Json.obj [("pain_points", Json.str "p")]))
      = .ok (some (Json.obj [("pain_points", Json.str "p")])) ∧
    load_account_plan (some (Json.obj [("summary", Json.str "s")])) = .ok none :=
  ⟨C6_load_account_plan_dual_shapes.1
      [("plan", Json.obj [("a", Json.str "b")]), ("created_at", Json.str "t"),
       ("version", Json.str "1.0")] (Json.obj [("a", Json.str "b")]) rfl,
   C6_load_account_plan_dual_shapes.2.1 [("pain_points", Json.str "p")] rfl rfl,
   C6_load_account_plan_dual_shapes.2.2 [("summary", Json.str "s")] rfl rfl⟩

/-- C7: a store file whose content is empty or unparsable reads as the
empty collection — the corrupt file is physically reset to the empty
object, `list_saved_companies` answers the empty list, and no store
operation raises: lookups answer `None` and updates answer `False`
(`Except.ok`, never `Except.error`). -/
theorem C7_corrupt_file_self_heals :
    load_db DbFile.empty = ([], DbFile.empty) ∧
    load_db DbFile.corrupt = ([], DbFile.stored []) ∧
    (list_saved_companies DbFile.empty).1 = [] ∧
    (list_saved_companies DbFile.corrupt).1 = [] ∧
    (∀ c : String, (load_plan c DbFile.empty).1 = none ∧
        (load_plan c DbFile.corrupt).1 = none) ∧
    (∀ c k v : String,
        update_plan_section c k v DbFile.empty = .ok (false, DbFile.empty) ∧
        update_plan_section c k v DbFile.corrupt = .ok (false, DbFile.stored [])) ∧
    (∀ (c : String) (P : Json),
        save_plan c P DbFile.corrupt = DbFile.stored [(c, P)]) := by
  refine ⟨rfl, rfl, rfl, rfl, ?_, ?_, ?_⟩
  · intro c
    exact ⟨rfl, rfl⟩
  · intro c k v
    exact ⟨rfl, rfl⟩
  · intro c P
    rfl

/-- C8: the Section Regeneration Stage never lets a collaborator error
escape — a failing collaborator call produces the visible diagnostic string
`Error regenerating section: ...`, a successful call returns its text as is
(so the stage always returns a string) — and the research corpus reaches
the prompt only through its first 1000 characters: two corpora agreeing on
that prefix produce identical prompts and identical results. -/
theorem C8_regenerate_section_total_and_truncated :
    (∀ (gen : String → Except String String) (sn cc ins rd e : String),
        gen (regen_prompt sn cc ins rd) = .error e →
        regenerate_section gen sn cc ins rd = "Error regenerating section: " ++ e) ∧
    (∀ (gen : String → Except String String) (sn cc ins rd t : String),
        gen (regen_prompt sn cc ins rd) = .ok t →
        regenerate_section gen sn cc ins rd = t) ∧
    (∀ sn cc ins rd rd2 : String, rd.take 1000 = rd2.take 1000 →
        regen_prompt sn cc ins rd = regen_prompt sn cc ins rd2) ∧
    (∀ (gen : String → Except String String) (sn cc ins rd rd2 : String),
        rd.take 1000 = rd2.take 1000 →
        regenerate_section gen sn cc ins rd = regenerate_section gen sn cc ins rd2) := by
  have hprompt : ∀ sn cc ins rd rd2 : String, rd.take 1000 = rd2.take 1000 →
      regen_prompt sn cc ins rd = regen_prompt sn cc ins rd2 := by
    intro sn cc ins rd rd2 h
    unfold regen_prompt
    rw [h]
  refine ⟨?_, ?_, hprompt, ?_⟩
  · intro gen sn cc ins rd e h
    unfold regenerate_section
    rw [h]
  · intro gen sn cc ins rd t h
    unfold regenerate_section
    rw [h]
  · intro gen sn cc ins rd rd2 h
    unfold regenerate_section
    rw [hprompt sn cc ins rd rd2 h]

/-- C8 witness: a collaborator that raises yields the diagnostic string,
one that answers yields its text. -/
theorem C8_regenerate_section_total_and_truncated_witness :
    regenerate_section (fun _ => .error "boom") "s" "c" "i" "r" =
      "Error regenerating section: boom" ∧
    regenerate_section (fun _ => .ok "fresh text") "s" "c" "i" "r" = "fresh text" :=
  ⟨C8_regenerate_section_total_and_truncated.1 (fun _ => .error "boom")
      "s" "c" "i" "r" "boom" rfl,
   C8_regenerate_section_total_and_truncated.2.1 (fun _ => .ok "fresh text")
      "s" "c" "i" "r" "fresh text" rfl⟩

/-! ## C9: insertion order of `list_saved_companies` -/

/-- Run a sequence of `save_plan` operations against a store file. -/
def run_saves (f : DbFile) (saves : List (String × Json)) : DbFile :=
  saves.foldl (fun acc sv => save_plan sv.1 sv.2 acc) f

/-- The order the specification describes: each company appears once, at
the position of its first save. -/
def specInsertionOrder (cs : List String) : List String :=
  cs.foldl (fun ks c => if c ∈ ks then ks else ks ++ [c]) []

theorem run_saves_keys (saves : List (String × Json)) :
    ∀ db : List (String × Json),
      (load_db (run_saves (DbFile.stored db) saves)).1.map Prod.fst =
        (saves.map Prod.fst).foldl
          (fun ks c => if c ∈ ks then ks else ks ++ [c]) (db.map Prod.fst) := by
  induction saves with
  | nil => intro db; rfl
  | cons sv rest ih =>
    intro db
    obtain ⟨c, P⟩ := sv
    have hstep : run_saves (DbFile.stored db) ((c, P) :: rest) =
        run_saves (DbFile.stored (dictSet db c P)) rest := rfl
    rw [hstep, ih (dictSet db c P)]
    rw [keys_dictSet]
    by_cases hm : c ∈ db.map Prod.fst
    · simp [hm]
    · simp [hm]

/-- C9: starting from an empty store, after any sequence of saves
`list_saved_companies` returns exactly the saved company names, each once,
in first-save order; and on any file state it returns exactly the keys the
store currently holds, in stored order. -/
theorem C9_list_companies_insertion_order :
    (∀ saves : List (String × Json),
        (list_saved_companies (run_saves (DbFile.stored []) saves)).1 =
          specInsertionOrder (saves.map Prod.fst)) ∧
    (∀ f : DbFile, (list_saved_companies f).1 = (dbOf f).map Prod.fst) := by
  constructor
  · intro saves
    have h := run_saves_keys saves []
    simpa [list_saved_companies, specInsertionOrder] using h
  · intro f
    rfl

/-- C10 counterexample: for a plan that already carries an `exported_at`
key, the export overwrites that value in place, so the exported mapping is
not the input mapping plus one added key — the input's own
`("exported_at", "old")` pair is gone. -/
theorem C10_counterexample_existing_exported_at :
    (export_plan_to_json [("exported_at", "old")] true "2025-06-01T00:00:00").2 =
      [("exported_at", "2025-06-01T00:00:00")] ∧
    ("exported_at", "old") ∉
      (export_plan_to_json [("exported_at", "old")] true "2025-06-01T00:00:00").2 := by
  constructor
  · rfl
  · decide

/-- C10 amended: `export_plan_to_json` never mutates its input plan (the
caller's dict after the call is the input); with the timestamp enabled the
exported dict is the input plus one appended `exported_at` entry whenever
the input does not already carry that key (an existing `exported_at` value
is overwritten in place instead); with the timestamp disabled the export is
the input itself. -/
theorem C10_export_pure_and_appends_timestamp :
    (∀ (plan : List (String × String)) (ts : Bool) (now : String),
        (export_plan_to_json plan ts now).1 = plan) ∧
    (∀ (plan : List (String × String)) (now : String),
        dictGet plan "exported_at" = none →
        (export_plan_to_json plan true now).2 = plan ++ [("exported_at", now)]) ∧
    (∀ (plan : List (String × String)) (now : String),
        (export_plan_to_json plan false now).2 = plan) := by
  refine ⟨?_, ?_, ?_⟩
  · intro plan ts now
    rfl
  · intro plan now h
    simp [export_plan_to_json, dictSet_append_of_absent plan "exported_at" now h]
  · intro plan now
    rfl

/-- C10 witness: the append case at a concrete plan without an
`exported_at` key. -/
theorem C10_export_pure_and_appends_timestamp_witness :
    (export_plan_to_json [("company_overview", "o")] true "T").2 =
      [("company_overview", "o"), ("exported_at", "T")] :=
  C10_export_pure_and_appends_timestamp.2.1 [("company_overview", "o")] "T" rfl
